import Mathlib

/-!
Shallow embedding of the reservation admission core of the ReservePTY API
(`src/server.js`), covering the `POST /api/reservations` handler (asset
ownership check, conflict check, tier-horizon check, insert) and the
`PATCH /api/reservations/:id/cancel` handler, together with the PostgreSQL
`OVERLAPS` operator used by the conflict query and the datastore state the
handlers read and write.

Timestamps are modelled as integers (milliseconds since the epoch, exactly
the values JavaScript `Date` arithmetic manipulates); UUIDs are modelled as
opaque numeric identities; the reservations table is a list of rows.
-/

namespace ReservePty

/-- A row of the `assets` table (`init-db.js`): only the columns the
admission core reads (`id`, `family_id`) are modelled. -/
structure Asset where
  id : Nat
  family_id : Nat
  deriving DecidableEq

/-- A row of the `reservations` table (`init-db.js`): `id`, `asset_id`,
`user_id`, `start_date`, `end_date`, `status`, `notes`, `metadata`,
`created_at`, `updated_at` (both timestamp columns default to NOW() on
insert). -/
structure Reservation where
  id : Nat
  asset_id : Nat
  user_id : Nat
  start_date : Int
  end_date : Int
  status : String
  notes : Option String
  metadata : Option String
  created_at : Int
  updated_at : Int
  deriving DecidableEq

/-- The authenticated requester (`req.user`), as loaded by the `authenticate`
middleware: the columns the reservation handlers read. -/
structure User where
  id : Nat
  family_id : Nat
  tier : Int
  deriving DecidableEq

/-- The datastore state the reservation handlers touch: the `assets` and
`reservations` tables, plus a counter standing in for `uuidv4()` fresh-id
generation. -/
structure Store where
  assets : List Asset
  reservations : List Reservation
  nextId : Nat
  deriving DecidableEq

/-- The request body of `POST /api/reservations`:
`{ assetId, startDate, endDate, notes, metadata }`. -/
structure CreateReq where
  assetId : Nat
  startDate : Int
  endDate : Int
  notes : Option String
  metadata : Option String
  deriving DecidableEq

/-- PostgreSQL `(s1, e1) OVERLAPS (s2, e2)` on non-null timestamps
(`timestamp_overlaps` in the PostgreSQL sources): each pair is first
normalised so its start is not after its end, and each period is the
half-open interval `[start, end)`, collapsing to the single instant `start`
when the endpoints are equal.  Periods sharing only an endpoint do NOT
overlap. -/
def pgOverlaps (s1 e1 s2 e2 : Int) : Bool :=
  let ts1 := min s1 e1
  let te1 := max s1 e1
  let ts2 := min s2 e2
  let te2 := max s2 e2
  if ts2 < ts1 then decide (ts1 < te2)
  else if ts1 < ts2 then decide (ts2 < te1)
  else true

/-- The inclusive-endpoint overlap predicate the specification ascribes to
the conflict check: `[s1,e1]` and `[s2,e2]` overlap iff
`s1 <= e2 AND s2 <= e1`.  Written from the spec's words, to be compared
with `pgOverlaps`, the operator the code actually runs. -/
def inclOverlap (s1 e1 s2 e2 : Int) : Bool :=
  decide (s1 ≤ e2 ∧ s2 ≤ e1)

/-- Milliseconds per day, the divisor `1000 * 60 * 60 * 24` in the handler. -/
def msPerDay : Int := 1000 * 60 * 60 * 24

/-- Integer ceiling division for a positive divisor (`Math.ceil(a / b)` on
exact integer inputs). -/
def ceilDiv (a b : Int) : Int := -((-a) / b)

/-- `Math.ceil((new Date(startDate) - new Date()) / (1000 * 60 * 60 * 24))`
from the handler: days ahead of `now` the requested start lies, rounded up. -/
def daysAhead (now start : Int) : Int := ceilDiv (start - now) msPerDay

/-- `[365, 180, 90, 30][req.user.tier - 1] || 30` from the handler: the
booking-horizon table.  A tier outside 1..4 indexes outside the array
(JavaScript yields `undefined`, and `|| 30` turns it into 30). -/
def maxDaysAhead (tier : Int) : Int :=
  if tier < 1 then 30
  else ([365, 180, 90, 30] : List Int).getD (tier - 1).toNat 30

/-- `SELECT * FROM assets WHERE id = $1 AND family_id = $2`: the ownership
lookup scoped to the requester's family. -/
def findAsset (st : Store) (assetId : Nat) (familyId : Nat) : Option Asset :=
  st.assets.find? (fun a => a.id == assetId && a.family_id == familyId)

/-- `SELECT id FROM reservations WHERE asset_id = $1 AND status != 'cancelled'
AND (start_date, end_date) OVERLAPS ($2::timestamp, $3::timestamp)` returned
at least one row. -/
def hasConflict (st : Store) (assetId : Nat) (s e : Int) : Bool :=
  st.reservations.any (fun r =>
    r.asset_id == assetId && r.status != "cancelled" &&
      pgOverlaps r.start_date r.end_date s e)

/-- The error responses of the reservation handlers: 404 `Asset not found` /
`Reservation not found or not authorized`, 409 `Time slot conflicts with
existing reservation`, and 403 `Tier X members can only book Y days in
advance` (the tier and the limit interpolated into the message are carried
as data). -/
inductive ApiError where
  | notFound
  | conflict
  | forbidden (tier : Int) (limit : Int)
  deriving DecidableEq

/-- Outcome of `POST /api/reservations`: the inserted row (`RETURNING *`)
or an error response. -/
inductive CreateResult where
  | created (r : Reservation)
  | err (e : ApiError)
  deriving DecidableEq

/-- The row inserted by `INSERT INTO reservations (id, asset_id, user_id,
start_date, end_date, status, notes, metadata, created_at) VALUES
($1, $2, $3, $4, $5, 'confirmed', $6, $7, NOW())`, with `updated_at` filled
by its column default NOW(). -/
def mkReservation (st : Store) (u : User) (req : CreateReq) (now : Int) :
    Reservation :=
  { id := st.nextId
    asset_id := req.assetId
    user_id := u.id
    start_date := req.startDate
    end_date := req.endDate
    status := "confirmed"
    notes := req.notes
    metadata := req.metadata
    created_at := now
    updated_at := now }

/-- The `POST /api/reservations` handler: ownership check, then conflict
check, then tier-horizon check, then insert; returns the result together
with the datastore state after the request. -/
def createReservation (st : Store) (u : User) (req : CreateReq) (now : Int) :
    CreateResult × Store :=
  match findAsset st req.assetId u.family_id with
  | none => (.err .notFound, st)
  | some _ =>
    if hasConflict st req.assetId req.startDate req.endDate then
      (.err .conflict, st)
    else if daysAhead now req.startDate > maxDaysAhead u.tier then
      (.err (.forbidden u.tier (maxDaysAhead u.tier)), st)
    else
      let r := mkReservation st u req now
      (.created r,
        { st with reservations := st.reservations ++ [r], nextId := st.nextId + 1 })

/-- Outcome of `PATCH /api/reservations/:id/cancel`: the updated row
(`RETURNING *`) or an error response. -/
inductive CancelResult where
  | cancelled (r : Reservation)
  | err (e : ApiError)
  deriving DecidableEq

/-- The per-row effect of `UPDATE reservations SET status = 'cancelled',
updated_at = NOW() WHERE id = $1 AND user_id = $2`. -/
def cancelOne (resId userId : Nat) (now : Int) (r : Reservation) : Reservation :=
  if r.id == resId && r.user_id == userId then
    { r with status := "cancelled", updated_at := now }
  else r

/-- The `PATCH /api/reservations/:id/cancel` handler: run the guarded
UPDATE; if it touched no row, 404 with the table unchanged, otherwise
return the first updated row (`result.rows[0]`). -/
def cancelReservation (st : Store) (userId resId : Nat) (now : Int) :
    CancelResult × Store :=
  let st' := { st with
    reservations := st.reservations.map (cancelOne resId userId now) }
  match st.reservations.filter (fun r => r.id == resId && r.user_id == userId) with
  | [] => (.err .notFound, st')
  | r :: _ => (.cancelled (cancelOne resId userId now r), st')

/-- A sequentially executed operation against the admission core: a
`POST /api/reservations` or a `PATCH /api/reservations/:id/cancel`, each
carrying its authenticated requester and its wall-clock time. -/
inductive Op where
  | create (u : User) (req : CreateReq) (now : Int)
  | cancel (userId resId : Nat) (now : Int)

/-- The datastore state after one operation. -/
def applyOp (st : Store) : Op → Store
  | .create u req now => (createReservation st u req now).2
  | .cancel userId resId now => (cancelReservation st userId resId now).2

/-- The datastore state after a sequence of operations. -/
def runOps (st : Store) (ops : List Op) : Store := ops.foldl applyOp st

/-- A datastore holding the given assets and no reservations at all. -/
def initialStore (assets : List Asset) : Store :=
  { assets := assets, reservations := [], nextId := 0 }

/-- Two reservation rows violate the per-asset exclusivity invariant under
overlap notion `ov`: same asset, neither cancelled, intervals overlapping. -/
def resConflict (ov : Int → Int → Int → Int → Bool) (r1 r2 : Reservation) : Bool :=
  r1.asset_id == r2.asset_id && r1.status != "cancelled" &&
    r2.status != "cancelled" && ov r1.start_date r1.end_date r2.start_date r2.end_date

/-- No two distinct rows of the list violate the per-asset exclusivity
invariant under overlap notion `ov`. -/
def conflictFree (ov : Int → Int → Int → Int → Bool) : List Reservation → Bool
  | [] => true
  | r :: rest => rest.all (fun r2 => !(resConflict ov r r2)) && conflictFree ov rest

/-! ### Helper lemmas -/

theorem conflictFree_append_singleton (ov : Int → Int → Int → Int → Bool)
    (l : List Reservation) (x : Reservation)
    (hl : conflictFree ov l = true)
    (hx : ∀ y ∈ l, resConflict ov y x = false) :
    conflictFree ov (l ++ [x]) = true := by
  induction l with
  | nil => simp [conflictFree]
  | cons a t ih =>
    simp only [conflictFree, Bool.and_eq_true, List.all_eq_true] at hl
    obtain ⟨ha, ht⟩ := hl
    simp only [List.cons_append, conflictFree, Bool.and_eq_true, List.all_eq_true]
    refine ⟨?_, ih ht (fun y hy => hx y (List.mem_cons_of_mem a hy))⟩
    intro y hy
    rcases List.mem_append.mp hy with hy | hy
    · exact ha y hy
    · rw [List.mem_singleton.mp hy]
      simp [hx a (List.mem_cons_self a t)]

theorem resConflict_cancelOne (ov : Int → Int → Int → Int → Bool)
    (resId userId : Nat) (now : Int) (a b : Reservation)
    (h : resConflict ov a b = false) :
    resConflict ov (cancelOne resId userId now a) (cancelOne resId userId now b) = false := by
  unfold resConflict cancelOne at *
  split_ifs <;> simp_all

theorem conflictFree_map_cancelOne (ov : Int → Int → Int → Int → Bool)
    (resId userId : Nat) (now : Int) (l : List Reservation)
    (hl : conflictFree ov l = true) :
    conflictFree ov (l.map (cancelOne resId userId now)) = true := by
  induction l with
  | nil => simp [conflictFree]
  | cons a t ih =>
    simp only [conflictFree, Bool.and_eq_true, List.all_eq_true] at hl
    obtain ⟨ha, ht⟩ := hl
    simp only [List.map_cons, conflictFree, Bool.and_eq_true, List.all_eq_true]
    refine ⟨?_, ih ht⟩
    intro y hy
    rcases List.mem_map.mp hy with ⟨b, hb, rfl⟩
    have hab : resConflict ov a b = false := by
      have := ha b hb
      simpa using this
    simp [resConflict_cancelOne ov resId userId now a b hab]

theorem cancelReservation_snd (st : Store) (userId resId : Nat) (now : Int) :
    (cancelReservation st userId resId now).2.reservations =
      st.reservations.map (cancelOne resId userId now) := by
  unfold cancelReservation
  split <;> rfl

theorem hasConflict_eq_false_iff (st : Store) (assetId : Nat) (s e : Int) :
    hasConflict st assetId s e = false ↔
      ∀ r ∈ st.reservations,
        (r.asset_id == assetId && r.status != "cancelled" &&
          pgOverlaps r.start_date r.end_date s e) = false := by
  unfold hasConflict
  rw [List.any_eq_false]
  constructor
  · intro h r hr
    simpa using h r hr
  · intro h r hr
    simp [h r hr]

theorem applyOp_conflictFree (st : Store) (op : Op)
    (h : conflictFree pgOverlaps st.reservations = true) :
    conflictFree pgOverlaps (applyOp st op).reservations = true := by
  cases op with
  | create u req now =>
    show conflictFree pgOverlaps (createReservation st u req now).2.reservations = true
    unfold createReservation
    cases hfind : findAsset st req.assetId u.family_id with
    | none => exact h
    | some a =>
      simp only
      split_ifs with hconf htier
      · exact h
      · exact h
      · simp only
        apply conflictFree_append_singleton pgOverlaps st.reservations _ h
        intro y hy
        have hy' := (hasConflict_eq_false_iff st req.assetId req.startDate
          req.endDate).mp (Bool.of_not_eq_true hconf) y hy
        unfold resConflict mkReservation
        simp only
        cases h1 : (y.asset_id == req.assetId) <;>
          cases h2 : (y.status != "cancelled") <;>
          cases h3 : pgOverlaps y.start_date y.end_date req.startDate req.endDate <;>
          simp_all
  | cancel userId resId now =>
    show conflictFree pgOverlaps (cancelReservation st userId resId now).2.reservations = true
    rw [cancelReservation_snd]
    exact conflictFree_map_cancelOne pgOverlaps resId userId now st.reservations h

/-! ### Claims -/

/-- C1 (amended): starting from a datastore with no reservations, after any
sequence of sequentially executed `createReservation` and
`cancelReservation` operations, no two reservation rows with status other
than `cancelled` on the same asset have intervals that overlap under the
PostgreSQL `OVERLAPS` semantics the conflict check actually runs: each pair
of endpoints is normalised so its start is not after its end and denotes
the half-open interval `[start, end)` (a single instant when the endpoints
are equal); in particular intervals sharing only an endpoint do not count
as overlapping. -/
theorem create_cancel_preserves_pg_exclusivity (assets : List Asset) (ops : List Op) :
    conflictFree pgOverlaps (runOps (initialStore assets) ops).reservations = true := by
  have key : ∀ (l : List Op) (st : Store),
      conflictFree pgOverlaps st.reservations = true →
      conflictFree pgOverlaps (runOps st l).reservations = true := by
    intro l
    induction l with
    | nil => intro st h; exact h
    | cons op t ih =>
      intro st h
      exact ih (applyOp st op) (applyOp_conflictFree st op h)
  exact key ops (initialStore assets) rfl

/-- C1 counterexample: from a datastore with one asset and no reservations,
two sequential `createReservation` calls for `[10, 12]` and `[12, 14]` on
that asset both succeed (the PostgreSQL `OVERLAPS` conflict check treats
intervals sharing only an endpoint as disjoint), leaving two `confirmed`
reservations on the same asset whose intervals overlap under the
inclusive-endpoint semantics the claim asserts, so the claimed invariant is
false for this sequence. -/
theorem inclusive_exclusivity_fails_on_adjacent_intervals :
    (runOps (initialStore [⟨1, 1⟩])
        [ .create ⟨10, 1, 1⟩ ⟨1, 10, 12, none, none⟩ 0
        , .create ⟨10, 1, 1⟩ ⟨1, 12, 14, none, none⟩ 0 ]).reservations =
      [ ⟨0, 1, 10, 10, 12, "confirmed", none, none, 0, 0⟩
      , ⟨1, 1, 10, 12, 14, "confirmed", none, none, 0, 0⟩ ]
    ∧ inclOverlap 10 12 12 14 = true
    ∧ conflictFree inclOverlap
        (runOps (initialStore [⟨1, 1⟩])
          [ .create ⟨10, 1, 1⟩ ⟨1, 10, 12, none, none⟩ 0
          , .create ⟨10, 1, 1⟩ ⟨1, 12, 14, none, none⟩ 0 ]).reservations = false := by
  decide

/-- C2 (amended): for every `createReservation` request whose
asset-ownership check passes, the operation fails with `Conflict` (and
creates no reservation) if and only if some reservation on that asset with
status other than `cancelled` has an interval that overlaps the requested
`[start, end]` under the PostgreSQL `OVERLAPS` semantics the conflict query
runs (pairs normalised so start is not after end, half-open `[start, end)`
periods, a pair of equal endpoints denoting that single instant); in
particular two intervals sharing only an endpoint (`e1 = s2`) do NOT count
as overlapping. -/
theorem conflict_iff_pg_overlap_exists (st : Store) (u : User) (req : CreateReq)
    (now : Int) (a : Asset)
    (hown : findAsset st req.assetId u.family_id = some a) :
    ((createReservation st u req now).1 = .err .conflict ↔
      ∃ r ∈ st.reservations, r.asset_id = req.assetId ∧ r.status ≠ "cancelled" ∧
        pgOverlaps r.start_date r.end_date req.startDate req.endDate = true)
    ∧ ((createReservation st u req now).1 = .err .conflict →
        (createReservation st u req now).2 = st) := by
  have hconf : hasConflict st req.assetId req.startDate req.endDate = true ↔
      ∃ r ∈ st.reservations, r.asset_id = req.assetId ∧ r.status ≠ "cancelled" ∧
        pgOverlaps r.start_date r.end_date req.startDate req.endDate = true := by
    unfold hasConflict
    rw [List.any_eq_true]
    constructor
    · rintro ⟨r, hr, hp⟩
      refine ⟨r, hr, ?_⟩
      have hp' := hp
      simp only [Bool.and_eq_true, beq_iff_eq, bne_iff_ne, ne_eq,
        decide_eq_true_eq] at hp'
      exact ⟨hp'.1.1, hp'.1.2, hp'.2⟩
    · rintro ⟨r, hr, h1, h2, h3⟩
      exact ⟨r, hr, by simp [h1, h2, h3]⟩
  unfold createReservation
  rw [hown]
  simp only
  split_ifs with h1 h2
  · exact ⟨⟨fun _ => hconf.mp h1, fun _ => rfl⟩, fun _ => rfl⟩
  · refine ⟨⟨fun h => ?_, fun h => ?_⟩, fun h => ?_⟩
    · simp at h
    · exact absurd (hconf.mpr h) h1
    · simp at h
  · refine ⟨⟨fun h => ?_, fun h => ?_⟩, fun h => ?_⟩
    · simp at h
    · exact absurd (hconf.mpr h) h1
    · simp at h

/-- C2 witness: on a concrete datastore holding one asset of family 1 and a
`confirmed` reservation over `[10, 12]`, a request by a family-1 user for
`[11, 13]` (a genuine half-open overlap) fails with `Conflict` and leaves
the datastore unchanged. -/
theorem conflict_iff_pg_overlap_exists_witness :
    (createReservation
        ⟨[⟨1, 1⟩], [⟨0, 1, 10, 10, 12, "confirmed", none, none, 0, 0⟩], 1⟩
        ⟨10, 1, 1⟩ ⟨1, 11, 13, none, none⟩ 0).1 = .err .conflict := by
  have h := conflict_iff_pg_overlap_exists
    ⟨[⟨1, 1⟩], [⟨0, 1, 10, 10, 12, "confirmed", none, none, 0, 0⟩], 1⟩
    ⟨10, 1, 1⟩ ⟨1, 11, 13, none, none⟩ 0 ⟨1, 1⟩ (by decide)
  exact h.1.mpr ⟨⟨0, 1, 10, 10, 12, "confirmed", none, none, 0, 0⟩,
    by simp, by decide, by decide, by decide⟩

/-- C2 counterexample: on a concrete datastore holding one asset of
family 1 and a `confirmed` reservation over `[10, 12]`, a request by a
family-1 user for the endpoint-adjacent interval `[12, 14]` passes the
ownership check and matches the claim's inclusive overlap predicate
(`10 ≤ 14 ∧ 12 ≤ 12`), yet the operation does not fail with `Conflict`: it
inserts a new `confirmed` reservation, because the code's `OVERLAPS`
conflict query treats intervals sharing only an endpoint as disjoint. -/
theorem adjacent_interval_admitted_despite_inclusive_overlap :
    findAsset ⟨[⟨1, 1⟩], [⟨0, 1, 10, 10, 12, "confirmed", none, none, 0, 0⟩], 1⟩ 1 1 =
      some ⟨1, 1⟩
    ∧ inclOverlap 10 12 12 14 = true
    ∧ ([⟨0, 1, 10, 10, 12, "confirmed", none, none, 0, 0⟩] : List Reservation).any
        (fun r => r.asset_id == 1 && r.status != "cancelled" &&
          inclOverlap r.start_date r.end_date 12 14) = true
    ∧ createReservation
        ⟨[⟨1, 1⟩], [⟨0, 1, 10, 10, 12, "confirmed", none, none, 0, 0⟩], 1⟩
        ⟨10, 1, 1⟩ ⟨1, 12, 14, none, none⟩ 0 =
      (.created ⟨1, 1, 10, 12, 14, "confirmed", none, none, 0, 0⟩,
        ⟨[⟨1, 1⟩],
         [⟨0, 1, 10, 10, 12, "confirmed", none, none, 0, 0⟩,
          ⟨1, 1, 10, 12, 14, "confirmed", none, none, 0, 0⟩], 2⟩) := by
  decide

theorem maxDaysAhead_of_unknown (t : Int)
    (h1 : t ≠ 1) (h2 : t ≠ 2) (h3 : t ≠ 3) (h4 : t ≠ 4) :
    maxDaysAhead t = 30 := by
  unfold maxDaysAhead
  split_ifs with hlt
  · rfl
  · obtain ⟨k, hk⟩ : ∃ k, (t - 1).toNat = k + 4 := ⟨(t - 1).toNat - 4, by omega⟩
    rw [hk]
    rfl

theorem daysAhead_is_ceil (now start : Int) :
    msPerDay * (daysAhead now start - 1) < start - now ∧
      start - now ≤ msPerDay * daysAhead now start := by
  unfold daysAhead ceilDiv msPerDay
  have h : (1000 * 60 * 60 * 24 : Int) = 86400000 := by norm_num
  rw [h]
  omega

/-- C3: for a `createReservation` request that passes the ownership and
conflict checks, the core computes `daysAhead` as the exact ceiling of
`(start - now) / 1 day`, looks `maxDaysAhead` up from the table
tier 1 → 365, 2 → 180, 3 → 90, 4 → 30 with every other tier yielding 30,
fails with `Forbidden` carrying the tier and the limit (writing nothing)
exactly when `daysAhead > maxDaysAhead`, and otherwise inserts exactly one
reservation with status `confirmed`. -/
theorem tier_horizon_check (st : Store) (u : User) (req : CreateReq) (now : Int)
    (a : Asset) (hown : findAsset st req.assetId u.family_id = some a)
    (hconf : hasConflict st req.assetId req.startDate req.endDate = false) :
    (msPerDay * (daysAhead now req.startDate - 1) < req.startDate - now ∧
      req.startDate - now ≤ msPerDay * daysAhead now req.startDate)
    ∧ maxDaysAhead 1 = 365 ∧ maxDaysAhead 2 = 180 ∧ maxDaysAhead 3 = 90 ∧
      maxDaysAhead 4 = 30
    ∧ (∀ t : Int, t ≠ 1 → t ≠ 2 → t ≠ 3 → t ≠ 4 → maxDaysAhead t = 30)
    ∧ (daysAhead now req.startDate > maxDaysAhead u.tier →
        createReservation st u req now =
          (.err (.forbidden u.tier (maxDaysAhead u.tier)), st))
    ∧ (daysAhead now req.startDate ≤ maxDaysAhead u.tier →
        (createReservation st u req now).1 = .created (mkReservation st u req now) ∧
        (mkReservation st u req now).status = "confirmed" ∧
        (createReservation st u req now).2.reservations =
          st.reservations ++ [mkReservation st u req now]) := by
  refine ⟨daysAhead_is_ceil now req.startDate, rfl, rfl, rfl, rfl,
    maxDaysAhead_of_unknown, ?_, ?_⟩
  · intro hgt
    unfold createReservation
    rw [hown]
    simp [hconf, hgt]
  · intro hle
    unfold createReservation
    rw [hown]
    refine ⟨?_, rfl, ?_⟩ <;> simp [hconf, not_lt.mpr hle]

/-- C3 witness: a concrete tier-4 user booking 45 days ahead is rejected
with `Forbidden` carrying tier 4 and limit 30, and the same user booking
20 days ahead gets a `confirmed` reservation inserted (45 and 20 days in
milliseconds, from `now = 0`). -/
theorem tier_horizon_check_witness :
    createReservation (initialStore [⟨1, 1⟩]) ⟨10, 1, 4⟩
        ⟨1, 45 * 86400000, 46 * 86400000, none, none⟩ 0 =
      (.err (.forbidden 4 30), initialStore [⟨1, 1⟩])
    ∧ (createReservation (initialStore [⟨1, 1⟩]) ⟨10, 1, 4⟩
        ⟨1, 20 * 86400000, 21 * 86400000, none, none⟩ 0).1 =
      .created ⟨0, 1, 10, 20 * 86400000, 21 * 86400000, "confirmed", none, none, 0, 0⟩ := by
  have h1 := tier_horizon_check (initialStore [⟨1, 1⟩]) ⟨10, 1, 4⟩
    ⟨1, 45 * 86400000, 46 * 86400000, none, none⟩ 0 ⟨1, 1⟩ (by decide) (by decide)
  have h2 := tier_horizon_check (initialStore [⟨1, 1⟩]) ⟨10, 1, 4⟩
    ⟨1, 20 * 86400000, 21 * 86400000, none, none⟩ 0 ⟨1, 1⟩ (by decide) (by decide)
  constructor
  · exact h1.2.2.2.2.2.2.1 (by decide)
  · exact ((h2.2.2.2.2.2.2.2 (by decide)).1).trans (by decide)

/-- The read-only admission phase of `POST /api/reservations`: the three
checks (ownership lookup, overlap query, tier horizon) the handler runs
before its INSERT, as a single predicate over the datastore snapshot they
read. -/
def passesChecks (st : Store) (u : User) (req : CreateReq) (now : Int) : Bool :=
  (findAsset st req.assetId u.family_id).isSome &&
    !hasConflict st req.assetId req.startDate req.endDate &&
    !(decide (daysAhead now req.startDate > maxDaysAhead u.tier))

/-- The write phase of `POST /api/reservations`: the INSERT, applied to
whatever datastore state holds when it executes (not necessarily the state
the checks read). -/
def commitInsert (st : Store) (u : User) (req : CreateReq) (now : Int) : Store :=
  { st with reservations := st.reservations ++ [mkReservation st u req now],
            nextId := st.nextId + 1 }

theorem createReservation_eq_check_then_insert (st : Store) (u : User)
    (req : CreateReq) (now : Int) (h : passesChecks st u req now = true) :
    createReservation st u req now =
      (.created (mkReservation st u req now), commitInsert st u req now) := by
  unfold passesChecks at h
  simp only [Bool.and_eq_true, Bool.not_eq_true', decide_eq_false_iff_not,
    Option.isSome_iff_exists] at h
  obtain ⟨⟨⟨a, ha⟩, hconf⟩, htier⟩ := h
  unfold createReservation commitInsert
  rw [ha]
  simp [hconf, htier]

/-- C4: the conflict check and the insert of `POST /api/reservations` are
two separate datastore operations (`createReservation` is literally the
check phase followed by the insert phase); interleaving two requests for
the same interval on the same asset as check₁, check₂, insert₁, insert₂
lets both requests pass their checks against the initial snapshot and both
commit, leaving two `confirmed` reservations with `OVERLAPS`-overlapping
intervals on one asset — a state sequential execution would refuse (the
second request's check fails once the first insert is committed). -/
theorem nonatomic_check_insert_race :
    (∀ (st : Store) (u : User) (req : CreateReq) (now : Int),
      passesChecks st u req now = true →
      createReservation st u req now =
        (.created (mkReservation st u req now), commitInsert st u req now))
    ∧ passesChecks (initialStore [⟨1, 1⟩]) ⟨10, 1, 1⟩ ⟨1, 10, 20, none, none⟩ 0 = true
    ∧ passesChecks (initialStore [⟨1, 1⟩]) ⟨11, 1, 1⟩ ⟨1, 10, 20, none, none⟩ 0 = true
    ∧ passesChecks
        (commitInsert (initialStore [⟨1, 1⟩]) ⟨10, 1, 1⟩ ⟨1, 10, 20, none, none⟩ 0)
        ⟨11, 1, 1⟩ ⟨1, 10, 20, none, none⟩ 0 = false
    ∧ (commitInsert
        (commitInsert (initialStore [⟨1, 1⟩]) ⟨10, 1, 1⟩ ⟨1, 10, 20, none, none⟩ 0)
        ⟨11, 1, 1⟩ ⟨1, 10, 20, none, none⟩ 0).reservations =
      [ ⟨0, 1, 10, 10, 20, "confirmed", none, none, 0, 0⟩
      , ⟨1, 1, 11, 10, 20, "confirmed", none, none, 0, 0⟩ ]
    ∧ pgOverlaps 10 20 10 20 = true
    ∧ conflictFree pgOverlaps
        (commitInsert
          (commitInsert (initialStore [⟨1, 1⟩]) ⟨10, 1, 1⟩ ⟨1, 10, 20, none, none⟩ 0)
          ⟨11, 1, 1⟩ ⟨1, 10, 20, none, none⟩ 0).reservations = false := by
  exact ⟨createReservation_eq_check_then_insert, by decide, by decide, by decide,
    by decide, by decide, by decide⟩

/-- C4 witness: the check-then-insert decomposition applied at a concrete
passing request. -/
theorem nonatomic_check_insert_race_witness :
    createReservation (initialStore [⟨1, 1⟩]) ⟨10, 1, 1⟩ ⟨1, 10, 20, none, none⟩ 0 =
      (.created ⟨0, 1, 10, 10, 20, "confirmed", none, none, 0, 0⟩,
        ⟨[⟨1, 1⟩], [⟨0, 1, 10, 10, 20, "confirmed", none, none, 0, 0⟩], 1⟩) := by
  have h := nonatomic_check_insert_race.1 (initialStore [⟨1, 1⟩]) ⟨10, 1, 1⟩
    ⟨1, 10, 20, none, none⟩ 0 (by decide)
  exact h.trans (by decide)

/-- C5: when no asset in the datastore has the requested id together with
the requester's family id (wrong family or nonexistent id),
`createReservation` fails with `NotFound` and leaves the datastore
untouched, whatever the requested interval, the requester's tier, or the
existing reservations — in particular the conflict and tier checks are
never reached (their outcome cannot alter the result). -/
theorem notfound_when_asset_not_owned (st : Store) (u : User) (req : CreateReq)
    (now : Int)
    (h : ∀ a ∈ st.assets, ¬(a.id = req.assetId ∧ a.family_id = u.family_id)) :
    createReservation st u req now = (.err .notFound, st) := by
  have hfind : findAsset st req.assetId u.family_id = none := by
    unfold findAsset
    rw [List.find?_eq_none]
    intro a ha
    simpa using h a ha
  unfold createReservation
  rw [hfind]

/-- C5 witness: a family-1 user requesting the sole asset, which belongs to
family 2, gets `NotFound` and an unchanged datastore — even though the
asset has a conflicting `confirmed` reservation over the same interval
(which would have produced `Conflict` had ownership passed). -/
theorem notfound_when_asset_not_owned_witness :
    createReservation
        ⟨[⟨1, 2⟩], [⟨0, 1, 10, 10, 20, "confirmed", none, none, 0, 0⟩], 1⟩
        ⟨10, 1, 1⟩ ⟨1, 10, 20, none, none⟩ 0 =
      (.err .notFound,
        ⟨[⟨1, 2⟩], [⟨0, 1, 10, 10, 20, "confirmed", none, none, 0, 0⟩], 1⟩) :=
  notfound_when_asset_not_owned
    ⟨[⟨1, 2⟩], [⟨0, 1, 10, 10, 20, "confirmed", none, none, 0, 0⟩], 1⟩
    ⟨10, 1, 1⟩ ⟨1, 10, 20, none, none⟩ 0 (by decide)

/-- C6: every `createReservation` execution either succeeds and appends
exactly one reservation row (the returned one) to the reservations table,
or fails (`NotFound`, `Conflict`, or `Forbidden`) and returns the datastore
state exactly as it was — no failure path writes anything. -/
theorem create_one_row_or_nothing (st : Store) (u : User) (req : CreateReq)
    (now : Int) :
    (∃ r, (createReservation st u req now).1 = .created r ∧
      (createReservation st u req now).2.reservations = st.reservations ++ [r])
    ∨ ((∃ e, (createReservation st u req now).1 = .err e) ∧
      (createReservation st u req now).2 = st) := by
  unfold createReservation
  cases findAsset st req.assetId u.family_id with
  | none => exact Or.inr ⟨⟨.notFound, rfl⟩, rfl⟩
  | some a =>
    simp only
    split_ifs with h1 h2
    · exact Or.inr ⟨⟨.conflict, rfl⟩, rfl⟩
    · exact Or.inr ⟨⟨.forbidden u.tier (maxDaysAhead u.tier), rfl⟩, rfl⟩
    · exact Or.inl ⟨mkReservation st u req now, rfl, rfl⟩

theorem cancelReservation_fst_of_head (st : Store) (userId resId : Nat)
    (now : Int) (r : Reservation)
    (hhead : (st.reservations.filter
        (fun x => x.id == resId && x.user_id == userId)).head? = some r) :
    (cancelReservation st userId resId now).1 =
      .cancelled { r with status := "cancelled", updated_at := now } := by
  unfold cancelReservation
  cases hf : st.reservations.filter
      (fun x => x.id == resId && x.user_id == userId) with
  | nil => rw [hf] at hhead; simp at hhead
  | cons r' t =>
    rw [hf] at hhead
    simp only [List.head?_cons, Option.some.injEq] at hhead
    have hmemf : r' ∈ st.reservations.filter
        (fun x => x.id == resId && x.user_id == userId) := by
      rw [hf]; exact List.mem_cons_self r' t
    have hr' : (r'.id == resId && r'.user_id == userId) = true :=
      (List.mem_filter.mp hmemf).2
    simp only [CancelResult.cancelled.injEq]
    rw [← hhead]
    unfold cancelOne
    rw [if_pos hr']

/-- C7: `cancelReservation` succeeds — setting the reservation's status to
`cancelled` and returning the updated row — exactly when some reservation
row has the given id and the requester's user id; the returned row is the
first matching row with only `status` and `updated_at` changed.  When no
row matches (absent id or a different owner), the result is `NotFound` and
the reservations table is left exactly as it was; rows that do not match
are never modified.  No condition on intervals or tier appears anywhere:
the outcome depends only on id and owner. -/
theorem cancel_owner_scoped (st : Store) (userId resId : Nat) (now : Int) :
    ((∃ r ∈ st.reservations, r.id = resId ∧ r.user_id = userId) ↔
      ∃ r, (cancelReservation st userId resId now).1 = .cancelled r ∧
        r.status = "cancelled" ∧ r.updated_at = now)
    ∧ (∀ r, (st.reservations.filter
          (fun x => x.id == resId && x.user_id == userId)).head? = some r →
        (cancelReservation st userId resId now).1 =
          .cancelled { r with status := "cancelled", updated_at := now })
    ∧ ((∀ r ∈ st.reservations, ¬(r.id = resId ∧ r.user_id = userId)) →
        (cancelReservation st userId resId now).1 = .err .notFound ∧
        (cancelReservation st userId resId now).2.reservations = st.reservations)
    ∧ (∀ r ∈ st.reservations, ¬(r.id = resId ∧ r.user_id = userId) →
        r ∈ (cancelReservation st userId resId now).2.reservations) := by
  refine ⟨?_, ?_, ?_, ?_⟩
  · constructor
    · rintro ⟨r, hr, hid, huid⟩
      have hne : st.reservations.filter
          (fun x => x.id == resId && x.user_id == userId) ≠ [] := by
        rw [ne_eq, List.filter_eq_nil_iff]
        push_neg
        exact ⟨r, hr, by simp [hid, huid]⟩
      unfold cancelReservation
      cases hf : st.reservations.filter
          (fun x => x.id == resId && x.user_id == userId) with
      | nil => exact absurd hf hne
      | cons r' t =>
        have hmemf : r' ∈ st.reservations.filter
            (fun x => x.id == resId && x.user_id == userId) := by
          rw [hf]; exact List.mem_cons_self r' t
        have hr' : (r'.id == resId && r'.user_id == userId) = true :=
          (List.mem_filter.mp hmemf).2
        refine ⟨cancelOne resId userId now r', rfl, ?_⟩
        unfold cancelOne
        rw [if_pos hr']
        exact ⟨rfl, rfl⟩
    · rintro ⟨r, hres, _⟩
      unfold cancelReservation at hres
      cases hf : st.reservations.filter
          (fun x => x.id == resId && x.user_id == userId) with
      | nil => rw [hf] at hres; simp at hres
      | cons r' t =>
        have hmemf : r' ∈ st.reservations.filter
            (fun x => x.id == resId && x.user_id == userId) := by
          rw [hf]; exact List.mem_cons_self r' t
        have hr' := (List.mem_filter.mp hmemf).2
        have hmem : r' ∈ st.reservations := (List.mem_filter.mp hmemf).1
        simp only [Bool.and_eq_true, beq_iff_eq] at hr'
        exact ⟨r', hmem, hr'.1, hr'.2⟩
  · intro r hhead
    exact cancelReservation_fst_of_head st userId resId now r hhead
  · intro h
    have hf : st.reservations.filter
        (fun x => x.id == resId && x.user_id == userId) = [] := by
      rw [List.filter_eq_nil_iff]
      intro r hr
      simpa using h r hr
    unfold cancelReservation
    rw [hf]
    refine ⟨rfl, ?_⟩
    simp only
    have : ∀ r ∈ st.reservations, cancelOne resId userId now r = r := by
      intro r hr
      unfold cancelOne
      rw [if_neg]
      simpa using h r hr
    calc st.reservations.map (cancelOne resId userId now)
        = st.reservations.map id := List.map_congr_left this
      _ = st.reservations := List.map_id st.reservations
  · intro r hr hnot
    have hfix : cancelOne resId userId now r = r := by
      unfold cancelOne
      rw [if_neg]
      simpa using hnot
    rw [cancelReservation_snd]
    exact hfix ▸ List.mem_map_of_mem (cancelOne resId userId now) hr

/-- C7 witness: on a concrete datastore, the owner cancelling their
`confirmed` reservation gets back the row with status `cancelled` and
`updated_at` refreshed. -/
theorem cancel_owner_scoped_witness :
    (cancelReservation
        ⟨[⟨1, 1⟩], [⟨0, 1, 10, 10, 12, "confirmed", none, none, 0, 0⟩], 1⟩
        10 0 5).1 =
      .cancelled ⟨0, 1, 10, 10, 12, "cancelled", none, none, 0, 5⟩ := by
  have h := cancel_owner_scoped
    ⟨[⟨1, 1⟩], [⟨0, 1, 10, 10, 12, "confirmed", none, none, 0, 0⟩], 1⟩ 10 0 5
  exact (h.2.1 ⟨0, 1, 10, 10, 12, "confirmed", none, none, 0, 0⟩ (by decide)).trans
    (by decide)

/-- C8: cancelling an already-cancelled reservation owned by the requester
succeeds again and returns the row with status still `cancelled` and every
field except `updated_at` unchanged (the guarded UPDATE places no condition
on the current status). -/
theorem cancel_idempotent_on_cancelled (st : Store) (userId resId : Nat)
    (now : Int) (r : Reservation)
    (hhead : (st.reservations.filter
        (fun x => x.id == resId && x.user_id == userId)).head? = some r)
    (hstatus : r.status = "cancelled") :
    (cancelReservation st userId resId now).1 =
      .cancelled { r with updated_at := now } := by
  have h := cancelReservation_fst_of_head st userId resId now r hhead
  rw [h]
  obtain ⟨i, ai, ui, s, e, stt, nt, md, ca, ua⟩ := r
  simp only at hstatus
  simp [hstatus]

/-- C8 witness: cancelling a reservation that is already `cancelled`
returns it unchanged apart from `updated_at`. -/
theorem cancel_idempotent_on_cancelled_witness :
    (cancelReservation
        ⟨[⟨1, 1⟩], [⟨0, 1, 10, 10, 12, "cancelled", none, none, 0, 3⟩], 1⟩
        10 0 5).1 =
      .cancelled ⟨0, 1, 10, 10, 12, "cancelled", none, none, 0, 5⟩ :=
  cancel_idempotent_on_cancelled
    ⟨[⟨1, 1⟩], [⟨0, 1, 10, 10, 12, "cancelled", none, none, 0, 3⟩], 1⟩
    10 0 5 ⟨0, 1, 10, 10, 12, "cancelled", none, none, 0, 3⟩ (by decide) rfl

/-- C9: `createReservation` places no constraint relating `start` and
`end`: a request with `end ≤ start` that passes the ownership, conflict,
and tier checks is inserted as-is, inverted interval and all. -/
theorem inverted_interval_still_created (st : Store) (u : User) (req : CreateReq)
    (now : Int) (a : Asset)
    (hown : findAsset st req.assetId u.family_id = some a)
    (hconf : hasConflict st req.assetId req.startDate req.endDate = false)
    (htier : daysAhead now req.startDate ≤ maxDaysAhead u.tier)
    (hinv : req.endDate ≤ req.startDate) :
    (createReservation st u req now).1 = .created (mkReservation st u req now)
    ∧ (mkReservation st u req now).start_date = req.startDate
    ∧ (mkReservation st u req now).end_date = req.endDate
    ∧ (createReservation st u req now).2.reservations =
        st.reservations ++ [mkReservation st u req now] := by
  refine ⟨?_, rfl, rfl, ?_⟩ <;>
    (unfold createReservation; rw [hown]; simp [hconf, not_lt.mpr htier])

/-- C9 witness: a concrete request with `start = 20 > end = 10` on an owned
asset with no other reservations is admitted and stored inverted. -/
theorem inverted_interval_still_created_witness :
    (createReservation (initialStore [⟨1, 1⟩]) ⟨10, 1, 1⟩
        ⟨1, 20, 10, none, none⟩ 0).1 =
      .created ⟨0, 1, 10, 20, 10, "confirmed", none, none, 0, 0⟩ := by
  have h := inverted_interval_still_created (initialStore [⟨1, 1⟩]) ⟨10, 1, 1⟩
    ⟨1, 20, 10, none, none⟩ 0 ⟨1, 1⟩ (by decide) (by decide) (by decide) (by decide)
  exact h.1.trans (by decide)

/-- C10: whenever the requested start is at or before `now`,
`daysAhead = ceil((start - now) / 1 day)` is at most 0, every tier's
horizon (known or unknown) is nonnegative, so the tier check can never
fire: `createReservation` never answers `Forbidden` for a past-dated or
immediate start, and no separate start-in-the-future validation exists. -/
theorem past_start_never_forbidden (now start : Int) (h : start ≤ now) :
    daysAhead now start ≤ 0
    ∧ (∀ tier : Int, 0 ≤ maxDaysAhead tier)
    ∧ (∀ tier : Int, ¬(daysAhead now start > maxDaysAhead tier))
    ∧ (∀ (st : Store) (u : User) (req : CreateReq) (t l : Int),
        req.startDate = start →
        (createReservation st u req now).1 ≠ .err (.forbidden t l)) := by
  have hda : daysAhead now start ≤ 0 := by
    unfold daysAhead ceilDiv msPerDay
    have he : (1000 * 60 * 60 * 24 : Int) = 86400000 := by norm_num
    rw [he]
    omega
  have hmax : ∀ tier : Int, 0 ≤ maxDaysAhead tier := by
    intro tier
    by_cases h1 : tier = 1
    · subst h1; decide
    by_cases h2 : tier = 2
    · subst h2; decide
    by_cases h3 : tier = 3
    · subst h3; decide
    by_cases h4 : tier = 4
    · subst h4; decide
    rw [maxDaysAhead_of_unknown tier h1 h2 h3 h4]
    norm_num
  have hnot : ∀ tier : Int, ¬(daysAhead now start > maxDaysAhead tier) :=
    fun tier => not_lt.mpr (le_trans hda (hmax tier))
  refine ⟨hda, hmax, hnot, ?_⟩
  intro st u req t l hstart
  unfold createReservation
  cases findAsset st req.assetId u.family_id with
  | none => simp
  | some a =>
    simp only
    split_ifs with h1 h2
    · simp
    · exact absurd (hstart ▸ h2) (hnot u.tier)
    · simp

/-- C10 witness: with `now = 100` and `start = 50` (a past start), the
computed `daysAhead` is nonpositive and a concrete tier-4 request is not
rejected with `Forbidden`. -/
theorem past_start_never_forbidden_witness :
    daysAhead 100 50 ≤ 0
    ∧ (createReservation (initialStore [⟨1, 1⟩]) ⟨10, 1, 4⟩
        ⟨1, 50, 60, none, none⟩ 100).1 ≠ .err (.forbidden 4 30) := by
  have h := past_start_never_forbidden 100 50 (by decide)
  exact ⟨h.1, h.2.2.2 (initialStore [⟨1, 1⟩]) ⟨10, 1, 4⟩
    ⟨1, 50, 60, none, none⟩ 4 30 rfl⟩

end ReservePty
